import Mathlib

/-!
Shallow embedding of the `watchdog` rate limiter (the zero-point variant of
`Limiter`, the one the package documentation designates as the current
algorithm).  Go `float64` token/rate quantities and `time.Time` /
`time.Duration` values are modelled as exact rationals measured in seconds:
the unit conversions of the code (`durationFromTokens`, `tokensFromDuration`)
become exact rational arithmetic, which is the idealisation the
specification itself adopts ("real-valued", "no sub-nanosecond time
precision guarantees", drift "beyond expected epsilon" excluded).
Mutex acquisition/release is elided: every operation is modelled as the
state transformation it performs inside its critical section.
-/

namespace Watchdog

/-- The `Limiter` struct: `limit` (tokens per second), `burst` (bucket
capacity) and the `zeroPoint` timeline marker.  The mutex field is elided. -/
structure Limiter where
  limit : ℚ
  burst : ℚ
  zeroPoint : ℚ
  deriving DecidableEq, Repr

/-- The two `fmt.Errorf` failure sites of `OccupyTokens`, with the values
they format into their messages: `invalidAmount` is the
the "burst is %f, and %f tokens invalid" error, `notReady` the
"tokens are not ready for startTime: %s, waitTime: %d ms" error. -/
inductive LimiterError where
  | invalidAmount (burst tokens : ℚ)
  | notReady (startTime waitTime : ℚ)
  deriving DecidableEq, Repr

/-- `InfDuration = time.Duration(1<<63 - 1)`, i.e. `2^63 - 1` nanoseconds,
expressed in seconds. -/
def InfDuration : ℚ := (2 ^ 63 - 1) / 10 ^ 9

/-- `durationFromTokens(tokens, limit)`: the time needed to accumulate
`tokens` tokens at `limit` tokens per second (exact, no truncation to
whole nanoseconds). -/
def durationFromTokens (tokens limit : ℚ) : ℚ := tokens / limit

/-- `tokensFromDuration(d, limit)`: the tokens accumulated during `d` at
`limit` tokens per second. -/
def tokensFromDuration (d limit : ℚ) : ℚ := d * limit

/-- `NewLimiter(limit, burst)`, with the implicit `time.Now()` passed
explicitly as `now`: sets `zeroPoint` to `now` minus the time needed to
fill the bucket, so the bucket starts full.  Note there is no validation
of `limit` or `burst` and no error return. -/
def NewLimiter (limit burst now : ℚ) : Limiter :=
  { limit := limit, burst := burst,
    zeroPoint := now - durationFromTokens burst limit }

/-- `TokensAt(t)`: tokens available at time `t`, capped above by `burst`
(and by nothing below). -/
def TokensAt (l : Limiter) (t : ℚ) : ℚ :=
  let tokens := tokensFromDuration (t - l.zeroPoint) l.limit
  if tokens > l.burst then l.burst else tokens

/-- The `Occupancy` struct minus its back-pointer to the limiter, which is
replaced by explicit state passing in `CancelAt`. -/
structure Occupancy where
  tokens : ℚ
  timeToAct : ℚ
  cancelled : Bool
  deriving DecidableEq, Repr

/-- The "move ZERO POINT forward if DEPRECATED TIME SPAN exists" block at
the top of `OccupyTokens`, split out so theorems can speak about the state
after the idle collapse. -/
def postCollapse (l : Limiter) (startTime : ℚ) : Limiter :=
  let durationToFullfillBucket := durationFromTokens l.burst l.limit
  let deprecatedTimeSpan := startTime - l.zeroPoint - durationToFullfillBucket
  if deprecatedTimeSpan > 0 then
    { l with zeroPoint := l.zeroPoint + deprecatedTimeSpan }
  else
    l

/-- `OccupyTokens(startTime, waitTime, tokens)`: validate the amount,
collapse any deprecated time span, reject if the deadline precedes the
ready time, otherwise build the occupancy (choosing `timeToAct` by the
position of `startTime` relative to the zero point and the ready time)
and advance `zeroPoint` to the ready time. -/
def OccupyTokens (l : Limiter) (startTime waitTime tokens : ℚ) :
    Except LimiterError (Occupancy × Limiter) :=
  if tokens < 0 ∨ tokens > l.burst then
    .error (.invalidAmount l.burst tokens)
  else
    let l1 := postCollapse l startTime
    let deadline := startTime + waitTime
    let durationForNewTokens := durationFromTokens tokens l1.limit
    let tokensReadyTime := l1.zeroPoint + durationForNewTokens
    if deadline < tokensReadyTime then
      .error (.notReady startTime waitTime)
    else
      let o : Occupancy :=
        if startTime < l1.zeroPoint then
          { tokens := tokens, timeToAct := tokensReadyTime, cancelled := false }
        else if tokensReadyTime < startTime then
          { tokens := tokens, timeToAct := startTime, cancelled := false }
        else
          { tokens := tokens, timeToAct := tokensReadyTime, cancelled := false }
      .ok (o, { l1 with zeroPoint := tokensReadyTime })

/-- `Occupancy.CancelAt(t)`: no-op when already cancelled; when `t` is
strictly after `timeToAct` just mark cancelled; otherwise move
`zeroPoint` backward by the occupied duration and mark cancelled.
Returns the updated occupancy and limiter. -/
def CancelAt (o : Occupancy) (l : Limiter) (t : ℚ) : Occupancy × Limiter :=
  if o.cancelled then
    (o, l)
  else if o.timeToAct < t then
    ({ o with cancelled := true }, l)
  else
    let reversedDuration := durationFromTokens o.tokens l.limit
    ({ o with cancelled := true },
     { l with zeroPoint := l.zeroPoint - reversedDuration })

/-- The reservation performed by `WaitN(ctx, n)`: an `OccupyTokens` call at
`now` with the `InfDuration` wait budget.  The context check, the timer
wait and the cancellation race are concurrency and are not modelled; the
error outcome of `WaitN` before any waiting is exactly this value. -/
def WaitN (l : Limiter) (now n : ℚ) : Except LimiterError Limiter :=
  match OccupyTokens l now InfDuration n with
  | .ok (_, l1) => .ok l1
  | .error e => .error e

/-- `Occupancy.DelayFrom(t)`: `max(0, timeToAct - t)`. -/
def DelayFrom (o : Occupancy) (t : ℚ) : ℚ :=
  let delay := o.timeToAct - t
  if delay < 0 then 0 else delay

/-- Run a list of `OccupyTokens` calls sequentially; requests are
`(startTime, waitTime, tokens)` triples.  Returns the issued occupancies in
order of issuance together with the final limiter, or `none` when any call
fails. -/
def runReservations (l : Limiter) :
    List (ℚ × ℚ × ℚ) → Option (List Occupancy × Limiter)
  | [] => some ([], l)
  | (s, w, n) :: rest =>
    match OccupyTokens l s w n with
    | .ok (o, l1) =>
      match runReservations l1 rest with
      | some (os, lf) => some (o :: os, lf)
      | none => none
    | .error _ => none

/-- Apply `CancelAt` for each `(occupancy, time)` pair in list order,
threading the limiter state through. -/
def cancelAll (l : Limiter) : List (Occupancy × ℚ) → Limiter
  | [] => l
  | (o, t) :: rest => cancelAll (CancelAt o l t).2 rest

/-- Decides that no call of the run hits the idle-collapse branch of
`OccupyTokens` (each request starts no later than one full refill after the
zero point it observes) and that every call succeeds. -/
def runWithoutCollapse (l : Limiter) : List (ℚ × ℚ × ℚ) → Bool
  | [] => true
  | (s, w, n) :: rest =>
    decide (s - l.zeroPoint ≤ durationFromTokens l.burst l.limit) &&
    match OccupyTokens l s w n with
    | .ok (_, l1) => runWithoutCollapse l1 rest
    | .error _ => false

/-! Helper lemmas about the operations. -/

theorem postCollapse_limit (l : Limiter) (s : ℚ) :
    (postCollapse l s).limit = l.limit := by
  simp only [postCollapse]
  split_ifs <;> rfl

theorem postCollapse_burst (l : Limiter) (s : ℚ) :
    (postCollapse l s).burst = l.burst := by
  simp only [postCollapse]
  split_ifs <;> rfl

theorem postCollapse_eq_self (l : Limiter) (s : ℚ)
    (h : s - l.zeroPoint ≤ durationFromTokens l.burst l.limit) :
    postCollapse l s = l := by
  have hn : ¬ s - l.zeroPoint - durationFromTokens l.burst l.limit > 0 := by
    linarith
  simp only [postCollapse]
  simp [hn]

theorem postCollapse_eq_of_idle (l : Limiter) (s : ℚ)
    (h : durationFromTokens l.burst l.limit < s - l.zeroPoint) :
    postCollapse l s
      = { l with zeroPoint := s - durationFromTokens l.burst l.limit } := by
  have hp : s - l.zeroPoint - durationFromTokens l.burst l.limit > 0 := by
    linarith
  simp only [postCollapse]
  simp only [hp, if_true]
  cases l
  simp
  ring

/-- Everything a successful `OccupyTokens` call tells us: the amount was
valid, the deadline met the ready time, the new limiter is the
post-collapse limiter with `zeroPoint` advanced to the ready time, and the
occupancy carries the requested tokens, is not cancelled, and acts at the
time the three-way branch of the code selects. -/
theorem occupyTokens_ok_elim (l : Limiter) (s w n : ℚ) (o : Occupancy)
    (l1 : Limiter) (h : OccupyTokens l s w n = .ok (o, l1)) :
    0 ≤ n ∧ n ≤ l.burst ∧
    (postCollapse l s).zeroPoint + durationFromTokens n l.limit ≤ s + w ∧
    l1.limit = l.limit ∧ l1.burst = l.burst ∧
    l1.zeroPoint = (postCollapse l s).zeroPoint + durationFromTokens n l.limit ∧
    o.tokens = n ∧ o.cancelled = false ∧
    o.timeToAct =
      (if s < (postCollapse l s).zeroPoint then
        (postCollapse l s).zeroPoint + durationFromTokens n l.limit
      else if (postCollapse l s).zeroPoint + durationFromTokens n l.limit < s
        then s
      else (postCollapse l s).zeroPoint + durationFromTokens n l.limit) := by
  simp only [OccupyTokens, postCollapse_limit] at h
  split_ifs at h with hv hd hb1 hb2 <;>
    (push_neg at hv
     injection h with h2
     injection h2 with ho hl
     subst ho
     subst hl
     refine ⟨hv.1, hv.2, not_lt.mp hd, ?_, ?_, ?_, ?_, ?_, ?_⟩ <;>
       (try simp_all [postCollapse_burst]) <;>
       (split_ifs <;> first | rfl | linarith))

/-! Claim theorems. -/

/-- C1: with rate 10 and capacity 20 and the bucket full at `t0 = 0`
(`zeroPoint = -2`), reserving 15 tokens at `t0` succeeds and leaves
`TokensAt t0 = 5`; reserving 10 at `t0 + 100ms` and 2 at `t0 + 200ms` both
succeed; and after cancelling the 10-token claim at `t0 + 300ms` the
available tokens at `t0 + 300ms` equal 6, not 4. -/
theorem scenario_reserve_and_cancel :
    (do
      let (_, l1) ← (OccupyTokens ⟨10, 20, -2⟩ 0 1 15).toOption
      let (o2, l2) ← (OccupyTokens l1 (1 / 10) 1 10).toOption
      let (_, l3) ← (OccupyTokens l2 (2 / 10) 1 2).toOption
      pure (TokensAt l1 0, TokensAt (CancelAt o2 l3 (3 / 10)).2 (3 / 10)))
      = some ((5 : ℚ), (6 : ℚ)) ∧ ((6 : ℚ) ≠ 4) := by
  refine ⟨?_, by norm_num⟩
  norm_num [OccupyTokens, postCollapse, durationFromTokens, tokensFromDuration,
    TokensAt, CancelAt, Except.toOption, Option.bind]

/-- C2 counterexample: `TokensAt` is not clamped at 0.  With rate 10,
capacity 20 and `zeroPoint = 1` (a bucket booked half a claim ahead), the
value at `t = 0` is `-10`, which is negative. -/
theorem tokensAt_negative :
    TokensAt ⟨10, 20, 1⟩ 0 = -10 ∧ ¬ (0 ≤ TokensAt ⟨10, 20, 1⟩ 0) := by
  norm_num [TokensAt, tokensFromDuration]

/-- C2 amended: `TokensAt t` equals `min capacity (rate * (t - zeroPoint))`
with no lower clamp (it can be negative when `t < zeroPoint`), and in
particular never exceeds the capacity; being a pure function of the state
it modifies nothing. -/
theorem tokensAt_min_no_clamp (l : Limiter) (t : ℚ) :
    TokensAt l t = min l.burst (tokensFromDuration (t - l.zeroPoint) l.limit) ∧
    TokensAt l t ≤ l.burst := by
  simp only [TokensAt]
  constructor
  · rcases le_or_lt (tokensFromDuration (t - l.zeroPoint) l.limit) l.burst
      with h | h
    · rw [if_neg (not_lt.mpr h), min_eq_right h]
    · rw [if_pos h, min_eq_left h.le]
  · split_ifs with h
    · exact le_refl _
    · exact not_lt.mp h

/-- C3: `NewLimiter` performs no configuration validation.  With the
malformed rate `-1` (rate ≤ 0) it still returns a limiter — one whose
`zeroPoint` lies 20 seconds in the future of `now` — rather than rejecting
the configuration; its return type has no error channel at all. -/
theorem newLimiter_no_validation :
    NewLimiter (-1) 20 0 = { limit := -1, burst := 20, zeroPoint := 20 } := by
  norm_num [NewLimiter, durationFromTokens]

/-- C7: cancelling strictly after `timeToAct` leaves the limiter (its
`zeroPoint`, rate and capacity) completely unchanged and still marks the
occupancy cancelled. -/
theorem cancelAt_after_actAt_noop (o : Occupancy) (l : Limiter) (t : ℚ)
    (h : o.timeToAct < t) :
    (CancelAt o l t).2 = l ∧
    (CancelAt o l t).1 = { o with cancelled := true } := by
  cases o with
  | mk tk ta c => cases c <;> simp [CancelAt, h]

/-- C7 witness: a concrete late cancellation (`timeToAct = 2`, cancel at
`t = 4`). -/
theorem cancelAt_after_actAt_noop_witness :
    (CancelAt ⟨5, 2, false⟩ ⟨10, 20, 3⟩ 4).2 = (⟨10, 20, 3⟩ : Limiter) ∧
    (CancelAt ⟨5, 2, false⟩ ⟨10, 20, 3⟩ 4).1
      = { (⟨5, 2, false⟩ : Occupancy) with cancelled := true } :=
  cancelAt_after_actAt_noop ⟨5, 2, false⟩ ⟨10, 20, 3⟩ 4 (by norm_num)

/-- C9: cancellation is idempotent — cancelling at `t1` and then again at
any later `t2` leaves the occupancy and the limiter exactly as cancelling
at `t1` alone does. -/
theorem cancelAt_idempotent (o : Occupancy) (l : Limiter) (t1 t2 : ℚ)
    (_h : t1 ≤ t2) :
    CancelAt (CancelAt o l t1).1 (CancelAt o l t1).2 t2 = CancelAt o l t1 := by
  cases o with
  | mk tk ta c =>
    cases c
    · by_cases h2 : ta < t1 <;> simp [CancelAt, h2]
    · simp [CancelAt]

/-- C9 witness: a concrete double cancellation at `t1 = 1 ≤ t2 = 3`. -/
theorem cancelAt_idempotent_witness :
    CancelAt (CancelAt ⟨1, 2, false⟩ ⟨10, 20, 0⟩ 1).1
        (CancelAt ⟨1, 2, false⟩ ⟨10, 20, 0⟩ 1).2 3
      = CancelAt ⟨1, 2, false⟩ ⟨10, 20, 0⟩ 1 :=
  cancelAt_idempotent ⟨1, 2, false⟩ ⟨10, 20, 0⟩ 1 3 (by norm_num)

/-- C10: a successful reservation with a nonnegative wait budget acts no
earlier than its own start time and no later than the deadline of the caller
`startTime + waitTime` (the rate is positive, per the configuration
contract). -/
theorem occupancy_actAt_bounds (l : Limiter) (s w n : ℚ) (o : Occupancy)
    (l1 : Limiter) (hlim : 0 < l.limit) (hw : 0 ≤ w)
    (h : OccupyTokens l s w n = .ok (o, l1)) :
    s ≤ o.timeToAct ∧ o.timeToAct ≤ s + w := by
  obtain ⟨hn0, -, hd, -, -, -, -, -, hta⟩ := occupyTokens_ok_elim l s w n o l1 h
  have hq : 0 ≤ durationFromTokens n l.limit := div_nonneg hn0 hlim.le
  rw [hta]
  split_ifs with h1 h2
  · exact ⟨by linarith, by linarith⟩
  · exact ⟨le_refl s, by linarith⟩
  · push_neg at h2
    exact ⟨by linarith, by linarith⟩

/-- C10 witness: the 15-token reservation of the scenario, taken with a
zero wait budget, acts exactly at its start time 0. -/
theorem occupancy_actAt_bounds_witness :
    (0 : ℚ) ≤ (Occupancy.mk 15 0 false).timeToAct ∧
    (Occupancy.mk 15 0 false).timeToAct ≤ 0 + 0 :=
  occupancy_actAt_bounds ⟨10, 20, -2⟩ 0 0 15 ⟨15, 0, false⟩ ⟨10, 20, -1/2⟩
    (by norm_num) (by norm_num)
    (by norm_num [OccupyTokens, postCollapse, durationFromTokens])

/-- C5: when a reservation arrives after an idle gap longer than one full
refill (`startTime - zeroPoint > capacity/rate`), the call behaves exactly
as on a limiter whose `zeroPoint` is `startTime - capacity/rate` — a bucket
exactly full at `startTime` — and that collapsed state holds exactly
`capacity` tokens at `startTime`, never more (rate positive per the
configuration contract). -/
theorem idle_collapse_exactly_full (l : Limiter) (s w n : ℚ)
    (hlim : 0 < l.limit)
    (hidle : durationFromTokens l.burst l.limit < s - l.zeroPoint) :
    OccupyTokens l s w n
      = OccupyTokens
          { l with zeroPoint := s - durationFromTokens l.burst l.limit } s w n ∧
    TokensAt { l with zeroPoint := s - durationFromTokens l.burst l.limit } s
      = l.burst := by
  have hc := postCollapse_eq_of_idle l s hidle
  have hc2 : postCollapse
      { l with zeroPoint := s - durationFromTokens l.burst l.limit } s
      = { l with zeroPoint := s - durationFromTokens l.burst l.limit } := by
    apply postCollapse_eq_self
    show s - (s - durationFromTokens l.burst l.limit)
      ≤ durationFromTokens l.burst l.limit
    linarith
  constructor
  · simp only [OccupyTokens, hc, hc2]
  · simp only [TokensAt, tokensFromDuration]
    have he : (s - (s - durationFromTokens l.burst l.limit)) * l.limit
        = l.burst := by
      unfold durationFromTokens
      field_simp
    rw [he]
    simp

/-- C5 witness: rate 1, capacity 1, `zeroPoint = 0`, reservation at
`startTime = 10` — the ten-second idle gap collapses to a bucket exactly
full at 10. -/
theorem idle_collapse_exactly_full_witness :
    OccupyTokens ⟨1, 1, 0⟩ 10 0 1
      = OccupyTokens { (⟨1, 1, 0⟩ : Limiter) with
          zeroPoint := 10 - durationFromTokens 1 1 } 10 0 1 ∧
    TokensAt { (⟨1, 1, 0⟩ : Limiter) with
        zeroPoint := 10 - durationFromTokens 1 1 } 10 = 1 :=
  idle_collapse_exactly_full ⟨1, 1, 0⟩ 10 0 1 (by norm_num)
    (by norm_num [durationFromTokens])

/-- C6: a successful reservation always sets `zeroPoint` to
`readyTime` — the post-collapse `zeroPoint` plus `tokens/rate` — so when a
second claim is granted while the bucket is busy (its start time is before
the `zeroPoint` left by the first), its occupied span
`[l1.zeroPoint, l2.zeroPoint]` begins exactly where the span of the first claim
ended, with no overlap and no gap (rate positive and capacity nonnegative
per the configuration contract). -/
theorem busy_spans_adjacent (l l1 l2 : Limiter) (o1 o2 : Occupancy)
    (s1 w1 n1 s2 w2 n2 : ℚ)
    (h1 : OccupyTokens l s1 w1 n1 = .ok (o1, l1))
    (h2 : OccupyTokens l1 s2 w2 n2 = .ok (o2, l2))
    (hbusy : s2 < l1.zeroPoint) (hlim : 0 < l1.limit)
    (hburst : 0 ≤ l1.burst) :
    l1.zeroPoint
      = (postCollapse l s1).zeroPoint + durationFromTokens n1 l.limit ∧
    l2.zeroPoint = l1.zeroPoint + durationFromTokens n2 l1.limit := by
  obtain ⟨-, -, -, -, -, hz1, -, -, -⟩ :=
    occupyTokens_ok_elim l s1 w1 n1 o1 l1 h1
  obtain ⟨-, -, -, -, -, hz2, -, -, -⟩ :=
    occupyTokens_ok_elim l1 s2 w2 n2 o2 l2 h2
  have hfill : 0 ≤ durationFromTokens l1.burst l1.limit :=
    div_nonneg hburst hlim.le
  have hnc : postCollapse l1 s2 = l1 :=
    postCollapse_eq_self l1 s2 (by linarith)
  rw [hnc] at hz2
  exact ⟨hz1, hz2⟩

/-- C6 witness: with rate 10, capacity 20 and `zeroPoint = -1/2`, a
10-token claim at `t = 1/10` leaves `zeroPoint = 1/2`; a 2-token claim at
`t = 2/10 < 1/2` (bucket busy) occupies exactly `[1/2, 7/10]`. -/
theorem busy_spans_adjacent_witness :
    (Limiter.mk 10 20 (1/2)).zeroPoint
      = (postCollapse ⟨10, 20, -1/2⟩ (1/10)).zeroPoint
        + durationFromTokens 10 (Limiter.mk 10 20 (-1/2)).limit ∧
    (Limiter.mk 10 20 (7/10)).zeroPoint
      = (Limiter.mk 10 20 (1/2)).zeroPoint
        + durationFromTokens 2 (Limiter.mk 10 20 (1/2)).limit :=
  busy_spans_adjacent ⟨10, 20, -1/2⟩ ⟨10, 20, 1/2⟩ ⟨10, 20, 7/10⟩
    ⟨10, 1/2, false⟩ ⟨2, 7/10, false⟩ (1/10) 1 10 (2/10) 1 2
    (by norm_num [OccupyTokens, postCollapse, durationFromTokens])
    (by norm_num [OccupyTokens, postCollapse, durationFromTokens])
    (by norm_num) (by norm_num) (by norm_num)

/-- C8 counterexample: the "unbounded" wait budget of `WaitN` is the finite
sentinel `InfDuration` (about 292 years), so `NotReady` is still reachable:
with `zeroPoint` booked `10^10` seconds past the call time, `WaitN` fails
with the `notReady` error even for the valid amount 1. -/
theorem waitN_notReady_counterexample :
    WaitN ⟨1, 1, 10 ^ 10⟩ 0 1 = .error (.notReady 0 InfDuration) := by
  norm_num [WaitN, OccupyTokens, postCollapse, durationFromTokens,
    InfDuration]

/-- C8 amended: `WaitN` never fails with `notReady` as long as the pending
backlog plus the requested refill time fits inside the `InfDuration`
sentinel (`zeroPoint - now + tokens/rate ≤ InfDuration`); under that bound
it fails with the `invalidAmount` error exactly when the requested amount
is negative or exceeds the capacity, and succeeds otherwise (rate positive
per the configuration contract). -/
theorem waitN_error_classification (l : Limiter) (now n : ℚ)
    (hlim : 0 < l.limit)
    (hb : l.zeroPoint - now + durationFromTokens n l.limit ≤ InfDuration) :
    (n < 0 ∨ n > l.burst →
      WaitN l now n = .error (.invalidAmount l.burst n)) ∧
    (0 ≤ n → n ≤ l.burst → ∃ lf, WaitN l now n = .ok lf) := by
  constructor
  · intro hv
    simp only [WaitN, OccupyTokens, if_pos hv]
  · intro h0 hn
    have hv : ¬ (n < 0 ∨ n > l.burst) := by
      push_neg
      exact ⟨h0, hn⟩
    have hInf : (0 : ℚ) ≤ InfDuration := by norm_num [InfDuration]
    have hready : (postCollapse l now).zeroPoint
        + durationFromTokens n l.limit ≤ now + InfDuration := by
      by_cases hcol : durationFromTokens l.burst l.limit < now - l.zeroPoint
      · rw [postCollapse_eq_of_idle l now hcol]
        have h1 : durationFromTokens n l.limit
            ≤ durationFromTokens l.burst l.limit := by
          unfold durationFromTokens
          gcongr
        show now - durationFromTokens l.burst l.limit
            + durationFromTokens n l.limit ≤ now + InfDuration
        linarith
      · push_neg at hcol
        rw [postCollapse_eq_self l now hcol]
        linarith
    simp only [WaitN, OccupyTokens, postCollapse_limit, if_neg hv,
      if_neg (not_lt.mpr hready)]
    exact ⟨_, rfl⟩

/-- C8 witness: a fresh full bucket (rate 1, capacity 1) with amount 1 —
the backlog bound holds and `WaitN` succeeds. -/
theorem waitN_error_classification_witness :
    ((1 : ℚ) < 0 ∨ (1 : ℚ) > (Limiter.mk 1 1 0).burst →
      WaitN ⟨1, 1, 0⟩ 0 1
        = .error (.invalidAmount (Limiter.mk 1 1 0).burst 1)) ∧
    ((0 : ℚ) ≤ 1 → (1 : ℚ) ≤ (Limiter.mk 1 1 0).burst →
      ∃ lf, WaitN ⟨1, 1, 0⟩ 0 1 = .ok lf) :=
  waitN_error_classification ⟨1, 1, 0⟩ 0 1 (by norm_num)
    (by norm_num [durationFromTokens, InfDuration])

/-- Step lemma: a successful reservation that does not trigger the idle
collapse advances `zeroPoint` by exactly `tokens/rate` and leaves the rate
and capacity unchanged; the fresh occupancy is uncancelled and carries the
requested amount. -/
theorem occupy_no_collapse_step (l : Limiter) (s w n : ℚ) (o : Occupancy)
    (l1 : Limiter)
    (hnc : s - l.zeroPoint ≤ durationFromTokens l.burst l.limit)
    (h : OccupyTokens l s w n = .ok (o, l1)) :
    l1.limit = l.limit ∧ l1.burst = l.burst ∧
    l1.zeroPoint = l.zeroPoint + durationFromTokens o.tokens l.limit ∧
    o.cancelled = false := by
  obtain ⟨-, -, -, hlm, hbs, hz, htk, hcn, -⟩ :=
    occupyTokens_ok_elim l s w n o l1 h
  rw [postCollapse_eq_self l s hnc] at hz
  rw [htk]
  exact ⟨hlm, hbs, hz, hcn⟩

/-- Run lemma: over a collapse-free successful run, the final limiter keeps
its rate and capacity and its `zeroPoint` is the initial one advanced by
the total reserved amount divided by the rate; all issued occupancies are
uncancelled. -/
theorem runReservations_no_collapse (reqs : List (ℚ × ℚ × ℚ)) :
    ∀ (l : Limiter) (os : List Occupancy) (lf : Limiter),
      runReservations l reqs = some (os, lf) →
      runWithoutCollapse l reqs = true →
      lf.limit = l.limit ∧ lf.burst = l.burst ∧
      lf.zeroPoint = l.zeroPoint + (os.map Occupancy.tokens).sum / l.limit ∧
      ∀ o ∈ os, o.cancelled = false := by
  induction reqs with
  | nil =>
    intro l os lf hrun hnc
    simp only [runReservations, Option.some.injEq, Prod.mk.injEq] at hrun
    obtain ⟨h1, h2⟩ := hrun
    subst h1
    subst h2
    simp
  | cons hd tl ih =>
    intro l os lf hrun hnc
    obtain ⟨s, w, n⟩ := hd
    simp only [runReservations] at hrun
    simp only [runWithoutCollapse, Bool.and_eq_true, decide_eq_true_eq]
      at hnc
    cases hoc : OccupyTokens l s w n with
    | error e =>
      simp only [hoc] at hrun
      exact Option.noConfusion hrun
    | ok p =>
      obtain ⟨o, l1⟩ := p
      simp only [hoc] at hrun
      simp only [hoc] at hnc
      cases hr2 : runReservations l1 tl with
      | none =>
        simp only [hr2] at hrun
        exact Option.noConfusion hrun
      | some q =>
        obtain ⟨os1, lf1⟩ := q
        simp only [hr2, Option.some.injEq, Prod.mk.injEq] at hrun
        obtain ⟨hos, hlf⟩ := hrun
        subst hlf
        obtain ⟨hstep1, hstep2, hstep3, hstep4⟩ :=
          occupy_no_collapse_step l s w n o l1 hnc.1 hoc
        obtain ⟨hr1, hr2b, hr3, hr4⟩ := ih l1 os1 lf1 hr2 hnc.2
        refine ⟨hr1.trans hstep1, hr2b.trans hstep2, ?_, ?_⟩
        · rw [← hos]
          rw [hr3, hstep3, hstep1]
          simp only [List.map_cons, List.sum_cons]
          rw [add_div]
          unfold durationFromTokens
          ring
        · rw [← hos]
          intro x hx
          rcases List.mem_cons.mp hx with hx1 | hx2
          · rw [hx1]
            exact hstep4
          · exact hr4 x hx2

/-- Restitution lemma: cancelling a list of uncancelled occupancies, each
at a time no later than its `timeToAct`, keeps the rate and capacity and
moves `zeroPoint` back by the total of their amounts divided by the rate,
whatever the order. -/
theorem cancelAll_restitution (ps : List (Occupancy × ℚ)) :
    ∀ (m : Limiter),
      (∀ p ∈ ps, p.1.cancelled = false ∧ p.2 ≤ p.1.timeToAct) →
      (cancelAll m ps).limit = m.limit ∧
      (cancelAll m ps).burst = m.burst ∧
      (cancelAll m ps).zeroPoint
        = m.zeroPoint - (ps.map (fun p => p.1.tokens)).sum / m.limit := by
  induction ps with
  | nil =>
    intro m hp
    simp [cancelAll]
  | cons hd tl ih =>
    intro m hp
    obtain ⟨o, t⟩ := hd
    have h0 := hp (o, t) (List.mem_cons_self _ _)
    have hc0 : o.cancelled = false := h0.1
    have hAct : ¬ o.timeToAct < t := not_lt.mpr h0.2
    have hstep : CancelAt o m t
        = ({ o with cancelled := true },
           { m with zeroPoint :=
              m.zeroPoint - durationFromTokens o.tokens m.limit }) := by
      simp [CancelAt, hc0, hAct]
    simp only [cancelAll, hstep]
    have ih2 := ih
      { m with zeroPoint :=
          m.zeroPoint - durationFromTokens o.tokens m.limit }
      (fun p hpmem => hp p (List.mem_cons_of_mem _ hpmem))
    simp only at ih2
    refine ⟨ih2.1, ih2.2.1, ?_⟩
    rw [ih2.2.2]
    simp only [List.map_cons, List.sum_cons]
    rw [add_div]
    unfold durationFromTokens
    ring

/-- C4 counterexample: a reservation that triggers the idle collapse is
not undone by cancelling it.  Rate 1, capacity 1, `zeroPoint = 0`:
reserving 1 token at `startTime = 10` (idle gap 10 > refill time 1) and
cancelling that single claim at its own `timeToAct` leaves
`zeroPoint = 9`, not the initial 0. -/
theorem conservation_counterexample :
    (do
      let (o1, l1) ← (OccupyTokens ⟨1, 1, 0⟩ 10 0 1).toOption
      pure ((cancelAll l1 [(o1, 10)]).zeroPoint))
      = some (9 : ℚ) ∧ (9 : ℚ) ≠ 0 := by
  refine ⟨?_, by norm_num⟩
  norm_num [OccupyTokens, postCollapse, durationFromTokens, cancelAll,
    CancelAt, Except.toOption, Option.bind]

/-- C4 amended: for a run of successful reservations none of which
triggers the idle collapse, cancelling all issued claims in reverse order
of issuance — each at a time not after the `timeToAct` of that claim — returns
`zeroPoint` exactly to its initial value. -/
theorem conservation_reverse_cancel (reqs : List (ℚ × ℚ × ℚ))
    (l : Limiter) (os : List Occupancy) (lf : Limiter) (ts : List ℚ)
    (hrun : runReservations l reqs = some (os, lf))
    (hnc : runWithoutCollapse l reqs = true)
    (hts : List.Forall₂ (fun (o : Occupancy) (t : ℚ) => t ≤ o.timeToAct)
      os ts) :
    (cancelAll lf ((os.zip ts).reverse)).zeroPoint = l.zeroPoint := by
  obtain ⟨hlm, hbs, hz, hcan⟩ :=
    runReservations_no_collapse reqs l os lf hrun hnc
  have hlen : os.length = ts.length := hts.length_eq
  have hzip : ∀ (a : Occupancy) (b : ℚ),
      (a, b) ∈ os.zip ts → b ≤ a.timeToAct :=
    fun a b hab => (List.forall₂_iff_zip.mp hts).2 hab
  have hmem : ∀ p ∈ (os.zip ts).reverse,
      p.1.cancelled = false ∧ p.2 ≤ p.1.timeToAct := by
    intro p hp
    obtain ⟨a, b⟩ := p
    rw [List.mem_reverse] at hp
    exact ⟨hcan a (List.of_mem_zip hp).1, hzip a b hp⟩
  obtain ⟨hc1, hc2, hc3⟩ :=
    cancelAll_restitution ((os.zip ts).reverse) lf hmem
  have hsum : (((os.zip ts).reverse).map (fun p => p.1.tokens)).sum
      = (os.map Occupancy.tokens).sum := by
    rw [List.map_reverse, List.sum_reverse]
    have h2 : ((os.zip ts).map (fun p => p.1.tokens))
        = (os.zip ts).map (Occupancy.tokens ∘ Prod.fst) := rfl
    rw [h2, ← List.map_map, List.map_fst_zip os ts (le_of_eq hlen)]
  rw [hc3, hsum, hz, hlm]
  ring

/-- C4 witness: two collapse-free reservations (15 tokens at 0, then 10
tokens at 1/10, on rate 10 / capacity 20 starting full) cancelled in
reverse order at their `timeToAct`s restore `zeroPoint` to the initial
-2. -/
theorem conservation_reverse_cancel_witness :
    (cancelAll ⟨10, 20, 1/2⟩
        ((([⟨15, 0, false⟩, ⟨10, 1/2, false⟩] : List Occupancy).zip
            ([0, 1/2] : List ℚ)).reverse)).zeroPoint
      = (Limiter.mk 10 20 (-2)).zeroPoint :=
  conservation_reverse_cancel [(0, 1, 15), (1/10, 1, 10)] ⟨10, 20, -2⟩
    [⟨15, 0, false⟩, ⟨10, 1/2, false⟩] ⟨10, 20, 1/2⟩ [0, 1/2]
    (by norm_num [runReservations, OccupyTokens, postCollapse,
      durationFromTokens])
    (by norm_num [runWithoutCollapse, OccupyTokens, postCollapse,
      durationFromTokens])
    (List.Forall₂.cons (by norm_num)
      (List.Forall₂.cons (by norm_num) List.Forall₂.nil))

end Watchdog
